import Mathlib

/-!
Verification development for the `listr` audio-fingerprinting client.

The definitions below are a shallow embedding of the Go sources:

* `src/internal/audiostream/signature.go` — the binary signature codec
  (`DecodeFromBinary`, `EncodeToBinary`, `RawSignatureHeader`,
  `FrequencyPeak`, `DecodedMessage`);
* `src/internal/audiostream/enums.go` — the frequency-band constants;
* `src/internal/shazam/shazam.go` — the band classifier `getFrequencyBand`.

Bytes are modelled as `List ℕ` (each entry a byte value, i.e. taken mod 256
at every point the Go code converts to `byte`).  Go machine integers are
modelled as `ℤ`/`ℕ` with explicit `% 2^w` (`Int.emod`) at each conversion,
and Go's truncated `%` operator as `Int.tmod`.  Go `float64` values, which
are exact dyadic rationals, are modelled as exact fractions (`Frac`) with
every arithmetic result passed through `f64round`, an implementation of
IEEE-754 binary64 round-to-nearest-ties-to-even for the normal range (all
float values arising in this development are normal and far from the
range limits; infinities, subnormals and NaN never arise here).
-/

set_option maxHeartbeats 1000000
set_option maxRecDepth 4000

/-- Exact fraction `num / den`; by construction every value built below has
`den > 0`.  Used to give exact semantics to Go `float64` computation. -/
structure Frac where
  num : ℤ
  den : ℤ
deriving DecidableEq, Repr

/-- Embed an integer as a fraction. -/
def Frac.ofInt (n : ℤ) : Frac := ⟨n, 1⟩

/-- Exact product of fractions (no rounding). -/
def Frac.mul (a b : Frac) : Frac := ⟨a.num * b.num, a.den * b.den⟩

/-- Exact sum of fractions (no rounding). -/
def Frac.add (a b : Frac) : Frac := ⟨a.num * b.den + b.num * a.den, a.den * b.den⟩

/-- Exact difference of fractions (no rounding). -/
def Frac.sub (a b : Frac) : Frac := ⟨a.num * b.den - b.num * a.den, a.den * b.den⟩

/-- Negation. -/
def Frac.neg (a : Frac) : Frac := ⟨-a.num, a.den⟩

/-- Floor of a fraction with positive denominator. -/
def Frac.floor (a : Frac) : ℤ := Int.fdiv a.num a.den

/-- Truncation toward zero, the semantics of Go's float-to-integer
conversion (for in-range values; out-of-range conversions are
implementation-defined in Go and never arise below). -/
def Frac.truncZ (a : Frac) : ℤ := Int.tdiv a.num a.den

/-- Round a fraction to the nearest integer, ties to even. -/
def rnte (q : Frac) : ℤ :=
  let f := q.floor
  let r2 := 2 * (q.num - f * q.den)
  if r2 < q.den then f
  else if q.den < r2 then f + 1
  else if f % 2 = 0 then f else f + 1

/-- Binary exponent search: for `0 < q`, scale `q` into `[1, 2)` and return
the exponent `e` with `2^e ≤ q < 2^(e+1)`.  Fuel-bounded; 1200 steps cover
the entire double range, and every value in this development is within a
few dozen steps. -/
def normExp : ℕ → Frac → ℤ → ℤ
  | 0, _, e => e
  | fuel+1, q, e =>
    if q.num < q.den then normExp fuel ⟨2 * q.num, q.den⟩ (e - 1)
    else if 2 * q.den ≤ q.num then normExp fuel ⟨q.num, 2 * q.den⟩ (e + 1)
    else e

/-- The fraction `2 ^ e` for an integer exponent. -/
def pow2Frac (e : ℤ) : Frac := if 0 ≤ e then ⟨2 ^ e.toNat, 1⟩ else ⟨1, 2 ^ (-e).toNat⟩

/-- Round a positive fraction to the nearest IEEE-754 binary64 value
(normal range): find the binary exponent, round the 53-bit significand to
nearest-even, and rescale. -/
def f64roundPos (q : Frac) : Frac :=
  let e := normExp 1200 q 0
  let m := rnte (q.mul (pow2Frac (52 - e)))
  (Frac.mk m 1).mul (pow2Frac (e - 52))

/-- Round an arbitrary fraction to the nearest binary64 value (normal
range), the rounding Go applies to every float64 arithmetic result and
conversion. -/
def f64round (q : Frac) : Frac :=
  if q.num = 0 then ⟨0, 1⟩
  else if q.num < 0 then Frac.neg (f64roundPos ⟨-q.num, q.den⟩)
  else f64roundPos q

/-- The Go source literal `0.24` as a float64: the binary64 value nearest
to 24/100. -/
def c024 : Frac := f64round ⟨24, 100⟩

/-- Go `float64(n)` for an integer `n`. -/
def f64ofInt (n : ℤ) : Frac := f64round (Frac.ofInt n)

/-- Go `float64(n)` for an unsigned value. -/
def f64ofNat (n : ℕ) : Frac := f64ofInt n

/-- Go float64 addition (exact sum, then binary64 rounding). -/
def fadd (a b : Frac) : Frac := f64round (a.add b)

/-- Go float64 subtraction. -/
def fsub (a b : Frac) : Frac := f64round (a.sub b)

/-- Go float64 multiplication. -/
def fmul (a b : Frac) : Frac := f64round (a.mul b)

/-- Go `uint32(x)` for a float64 `x`: truncate toward zero (in-range
values only; all uses below are in range, and the `emod` merely keeps the
result a 32-bit value). -/
def goFloatToUInt32 (q : Frac) : ℕ := ((Frac.truncZ q).emod (2^32)).toNat

/-- Little-endian bytes of a 16-bit value (as written by
`binary.Write(..., uint16(v))`). -/
def u16le (n : ℕ) : List ℕ := [n % 256, n / 2^8 % 256]

/-- Little-endian bytes of a 32-bit value (as written by
`binary.Write(..., uint32(v))`). -/
def u32le (n : ℕ) : List ℕ := [n % 256, n / 2^8 % 256, n / 2^16 % 256, n / 2^24 % 256]

/-- Byte of a buffer at an index (0 when out of range; every use below is
guarded by a length check, matching the Go reads). -/
def byteAt (bs : List ℕ) (i : ℕ) : ℕ := bs.getD i 0

/-- `binary.LittleEndian.Uint16` of two bytes at offset `i`. -/
def readU16le (bs : List ℕ) (i : ℕ) : ℕ := byteAt bs i + 2^8 * byteAt bs (i+1)

/-- `binary.LittleEndian.Uint32` of four bytes at offset `i`. -/
def readU32le (bs : List ℕ) (i : ℕ) : ℕ :=
  byteAt bs i + 2^8 * byteAt bs (i+1) + 2^16 * byteAt bs (i+2) + 2^24 * byteAt bs (i+3)

/-- One bit-step of the reflected IEEE CRC-32 (polynomial 0xEDB88320),
as used by Go's `hash/crc32.ChecksumIEEE`. -/
def crc32Round (c : ℕ) : ℕ := if c % 2 = 1 then Nat.xor (c / 2) 0xEDB88320 else c / 2

/-- Fold one byte into the CRC-32 state (eight bit-steps). -/
def crc32Byte (c b : ℕ) : ℕ :=
  crc32Round (crc32Round (crc32Round (crc32Round
    (crc32Round (crc32Round (crc32Round (crc32Round (Nat.xor c b))))))))

/-- `crc32.ChecksumIEEE` over a byte sequence. -/
def crc32ieee (bs : List ℕ) : ℕ := Nat.xor (bs.foldl crc32Byte 0xFFFFFFFF) 0xFFFFFFFF

/-- `Magic1` from signature.go. -/
def Magic1 : ℕ := 0xCAFE2580

/-- `Magic2` from signature.go. -/
def Magic2 : ℕ := 0x94119C00

/-- `FixedValue` as built by `EncodeToBinary`: `(15 << 19) + 0x40000`. -/
def FixedValue : ℕ := 15 * 2^19 + 0x40000

/-- `LowBand` from enums.go. -/
def LowBand : ℤ := 0

/-- `MidBand` from enums.go. -/
def MidBand : ℤ := 1

/-- `HighBand` from enums.go. -/
def HighBand : ℤ := 2

/-- `VeryHighBand` from enums.go. -/
def VeryHighBand : ℤ := 3

/-- `FrequencyPeak` from signature.go (fields are Go `int`, modelled as ℤ). -/
structure FrequencyPeak where
  FFTPassNumber : ℤ
  PeakMagnitude : ℤ
  CorrectedPeakFrequencyBin : ℤ
  SampleRateHz : ℤ
deriving DecidableEq, Repr

/-- `DecodedMessage` from signature.go.  The Go field
`FrequencyBandToSoundPeaks` is a `map[FrequencyBand][]FrequencyPeak`;
it is modelled as an association list with distinct keys.  For encoding,
the list order stands for one (arbitrary but fixed) Go map iteration
order; for decoding, keys appear in first-insertion order. -/
structure DecodedMessage where
  SampleRateHz : ℤ
  NumberSamples : ℤ
  FrequencyBandToSoundPeaks : List (ℤ × List FrequencyPeak)
deriving DecidableEq, Repr

/-- The peak-delta encoder loop of `EncodeToBinary` (signature.go lines
176–187): running baseline `fftPassNumber`, a `0xFF` escape record with
the absolute 32-bit pass number whenever the gap is ≥ 255, then the
1-byte delta, 2-byte magnitude and 2-byte frequency bin. -/
def encodePeaks : ℤ → List FrequencyPeak → List ℕ
  | _, [] => []
  | fftPassNumber, peak :: rest =>
    let needEscape := 255 ≤ peak.FFTPassNumber - fftPassNumber
    let escape := if needEscape
      then 0xFF :: u32le ((peak.FFTPassNumber.emod (2^32)).toNat)
      else []
    let base := if needEscape then peak.FFTPassNumber else fftPassNumber
    escape ++ ((peak.FFTPassNumber - base).emod (2^8)).toNat
      :: (u16le ((peak.PeakMagnitude.emod (2^16)).toNat)
        ++ u16le ((peak.CorrectedPeakFrequencyBin.emod (2^16)).toNat)
        ++ encodePeaks peak.FFTPassNumber rest)

/-- The TLV-building loop of `EncodeToBinary` (signature.go lines
171–193).  Go computes the padding as `make([]byte, -peaksBuf.Len()%4)`;
`-len % 4` is Go's truncated remainder `Int.tmod`, which is negative
whenever `len % 4 ≠ 0`, and `make` with a negative length panics —
modelled as `none`. -/
def encodeContents : List (ℤ × List FrequencyPeak) → Option (List ℕ)
  | [] => some []
  | (band, peaks) :: rest =>
    let payload := encodePeaks 0 peaks
    let padding := Int.tmod (-(payload.length : ℤ)) 4
    if padding < 0 then none
    else match encodeContents rest with
      | none => none
      | some tail => some (u32le ((((0x60030040 : ℤ) + band).emod (2^32)).toNat)
          ++ u32le (payload.length % 2^32) ++ payload
          ++ List.replicate padding.toNat 0 ++ tail)

/-- `EncodeToBinary` (signature.go lines 162–212).  `none` models the Go
runtime panic on a negative `make` length.  Note the final buffer is
`header(48 bytes) ++ finalBuf[12:]` — exactly what the Go code writes
(`updatedBuf.Write(finalBuf.Bytes()[12:])`), which re-appends header
bytes 12..48 before the inner length prefix. -/
def EncodeToBinary (msg : DecodedMessage) : Option (List ℕ) :=
  match encodeContents msg.FrequencyBandToSoundPeaks with
  | none => none
  | some contents =>
    let shifted := (((msg.SampleRateHz.emod (2^32)).toNat) * 2^27) % 2^32
    let numField := goFloatToUInt32
      (fadd (f64ofInt msg.NumberSamples) (fmul (f64ofInt msg.SampleRateHz) c024))
    let sizeMinusHeader := (contents.length + 8) % 2^32
    let headerBytes := fun crc => u32le Magic1 ++ u32le crc ++ u32le sizeMinusHeader
      ++ u32le Magic2 ++ List.replicate 12 0 ++ u32le shifted ++ List.replicate 8 0
      ++ u32le numField ++ u32le FixedValue
    let finalBuf := headerBytes 0 ++ u32le 0x40000000
      ++ u32le ((contents.length + 8) % 2^32) ++ contents
    let crc := crc32ieee (finalBuf.drop 8)
    some (headerBytes crc ++ finalBuf.drop 12)

/-- Error outcomes of `DecodeFromBinary`.  The Go function returns
distinct `fmt.Errorf` values for the three header checks and propagates
`io.EOF` / `io.ErrUnexpectedEOF` from reads; each non-nil Go error is one
constructor here. -/
inductive DecodeError where
  | headerTruncated
  | invalidMagic1
  | invalidSize
  | invalidMagic2
  | payloadReadEOF
  | peakTruncated
  | outOfFuel
deriving DecidableEq, Repr

instance {α β : Type} [DecidableEq α] [DecidableEq β] : DecidableEq (Except α β) := fun a b =>
  match a, b with
  | .ok x, .ok y => if h : x = y then .isTrue (by simp [h]) else .isFalse (by simp [h])
  | .error e, .error f => if h : e = f then .isTrue (by simp [h]) else .isFalse (by simp [h])
  | .ok _, .error _ => .isFalse (by simp)
  | .error _, .ok _ => .isFalse (by simp)

/-- Append decoded peaks under a band key, the effect of the Go
`msg.FrequencyBandToSoundPeaks[band] = append(...)` calls of one payload:
no key is created when no peak was decoded. -/
def mapAppend : List (ℤ × List FrequencyPeak) → ℤ → List FrequencyPeak →
    List (ℤ × List FrequencyPeak)
  | m, _, [] => m
  | [], band, ps => [(band, ps)]
  | (b, old) :: rest, band, ps =>
    if b = band then (b, old ++ ps) :: rest else (b, old) :: mapAppend rest band ps

/-- The peak-record loop of `DecodeFromBinary` (signature.go lines
118–155) over one band payload: a leading byte is either the `0xFF`
escape (followed by a 4-byte absolute pass number that resets the
baseline, emitting no peak) or a delta added to the running baseline,
followed by 2-byte magnitude and 2-byte frequency bin.  A record cut off
mid-field makes `binary.Read` fail — modelled as `.peakTruncated`.
Fuel-bounded recursion; each step consumes at least one byte, so fuel
`length + 1` never runs out. -/
def parsePeaks (rate : ℤ) : ℕ → List ℕ → ℤ → List FrequencyPeak →
    Except DecodeError (List FrequencyPeak)
  | 0, _, _, _ => .error .outOfFuel
  | _+1, [], _, acc => .ok acc
  | fuel+1, b :: rest, fftPassNumber, acc =>
    if b = 0xFF then
      if rest.length < 4 then .error .peakTruncated
      else parsePeaks rate fuel (rest.drop 4) (readU32le rest 0) acc
    else
      if rest.length < 4 then .error .peakTruncated
      else
        let pass := fftPassNumber + b
        parsePeaks rate fuel (rest.drop 4) pass
          (acc ++ [⟨pass, readU16le rest 0, readU16le rest 2, rate⟩])

/-- The TLV loop of `DecodeFromBinary` (signature.go lines 95–156),
with the exact `bytes.Reader` semantics the Go code relies on:

* `buf.Read(tlvHeader[:])` fails only when no byte remains (then the loop
  breaks); a short read of 1–7 bytes returns no error and leaves the
  remaining stale bytes of the previous TLV header in place;
* `buf.Read(peaksBuf)` fails (with `io.EOF`) exactly when the reader is
  empty; otherwise it fills as many bytes as remain, leaving the rest of
  the freshly allocated buffer zero, with no error;
* `buf.Seek(padding, io.SeekCurrent)` with `padding = -size % 4 ≤ 0`
  moves the cursor backwards (its error, only possible for a negative
  result, is ignored by the Go code and the position is then unchanged).

Fuel-bounded; every non-erroring iteration advances the cursor by at
least 6 bytes, so fuel `data.length + 1` never runs out. -/
def decodeLoop (data : List ℕ) (rate : ℤ) : ℕ → ℕ → List ℕ →
    List (ℤ × List FrequencyPeak) → Except DecodeError (List (ℤ × List FrequencyPeak))
  | 0, _, _, _ => .error .outOfFuel
  | fuel+1, pos, tlvStale, acc =>
    if data.length ≤ pos then .ok acc
    else
      let n1 := min 8 (data.length - pos)
      let tlv := (data.drop pos).take n1 ++ tlvStale.drop n1
      let pos1 := pos + n1
      let bandID := readU32le tlv 0
      let size := readU32le tlv 4
      let padding := Int.tmod (-(size : ℤ)) 4
      if data.length ≤ pos1 then .error .payloadReadEOF
      else
        let n2 := min size (data.length - pos1)
        let payload := (data.drop pos1).take n2 ++ List.replicate (size - n2) 0
        let pos2 := pos1 + n2
        let pos3 := if (pos2 : ℤ) + padding < 0 then pos2 else ((pos2 : ℤ) + padding).toNat
        let band := ((bandID : ℤ) - 0x60030040).emod (2^32)
        match parsePeaks rate (size + 1) payload 0 [] with
        | .error e => .error e
        | .ok newPeaks => decodeLoop data rate fuel pos3 tlv (mapAppend acc band newPeaks)

/-- `DecodeFromBinary` (signature.go lines 63–159).  `binary.Read` of the
48-byte header fails on shorter input; then the three header checks run
in order (magic1, size, magic2); the sample rate is the packed field
shifted right 27 bits; the sample count subtracts `sampleRate * 0.24` in
float64 and truncates; then the TLV loop consumes the rest.  (The
`Seek(8)`/`ReadAll`/`Seek(0)` preamble of the Go code has no observable
effect on a `bytes.Reader` and is omitted.) -/
def DecodeFromBinary (data : List ℕ) : Except DecodeError DecodedMessage :=
  if data.length < 48 then .error .headerTruncated
  else if readU32le data 0 ≠ Magic1 then .error .invalidMagic1
  else if readU32le data 8 ≠ (data.length - 48) % 2^32 then .error .invalidSize
  else if readU32le data 12 ≠ Magic2 then .error .invalidMagic2
  else
    let sampleRate : ℤ := ((readU32le data 28) >>> 27 : ℕ)
    let numberSamples : ℤ :=
      Frac.truncZ (fsub (f64ofNat (readU32le data 40)) (fmul (f64ofInt sampleRate) c024))
    match decodeLoop data sampleRate (data.length + 1) 48 (List.replicate 8 0) [] with
    | .error e => .error e
    | .ok bands => .ok ⟨sampleRate, numberSamples, bands⟩

/-- `getFrequencyBand` from shazam.go: pure classification of a float64
frequency (modelled as an exact rational) into the four bands. -/
def getFrequencyBand (frequency : ℚ) : ℤ :=
  if frequency < 250 then LowBand
  else if frequency < 520 then MidBand
  else if frequency < 1450 then HighBand
  else VeryHighBand

/-- The byte output of `EncodeToBinary`, `[]` when it panics. -/
def encBytes (msg : DecodedMessage) : List ℕ := (EncodeToBinary msg).getD []

/-- A well-formed 48-byte header-only buffer: both magics, a zero size
field (48-byte total), given packed sample-rate and sample-count fields,
zero elsewhere. -/
def goodHeader48 (shifted numField : ℕ) : List ℕ :=
  u32le Magic1 ++ u32le 0 ++ u32le 0 ++ u32le Magic2 ++ List.replicate 12 0
    ++ u32le shifted ++ List.replicate 8 0 ++ u32le numField ++ u32le 0

/-- A 61-byte buffer: valid header, then a TLV record declaring a 20-byte
payload of which only 5 bytes `[1,2,0,3,0]` are present (a truncated
record). -/
def truncated61 : List ℕ :=
  u32le Magic1 ++ u32le 0 ++ u32le 13 ++ u32le Magic2 ++ List.replicate 12 0
    ++ u32le 0 ++ List.replicate 8 0 ++ u32le 0 ++ u32le 0
    ++ u32le 0x60030040 ++ u32le 20 ++ [1, 2, 0, 3, 0]

/-- A 76-byte buffer: valid header, then one complete 20-byte band
payload containing two peaks, each preceded by a `0xFF` escape record
(absolute passes 300 and 400; the second escape carries no peak). -/
def escapeInput76 : List ℕ :=
  u32le Magic1 ++ u32le 0 ++ u32le 28 ++ u32le Magic2 ++ List.replicate 12 0
    ++ u32le 0 ++ List.replicate 8 0 ++ u32le 0 ++ u32le 0
    ++ u32le 0x60030040 ++ u32le 20
    ++ ([0, 1, 0, 1, 0] ++ 0xFF :: u32le 300 ++ [0, 2, 0, 2, 0] ++ 0xFF :: u32le 400)

/-- Claim C1: the round-trip `Decode(Encode(s))` does not reproduce the
signature; the code fails its own round-trip test.  `EncodeToBinary` of
the repository test's message (one peak per band) panics outright
(payload length 5, padding computed as the negative Go remainder
`-5 % 4 = -1`), and for a signature whose band payload length is a
multiple of 4 (four peaks) the encoder does produce bytes, but
`DecodeFromBinary` rejects them with the size-mismatch error, because
the final buffer re-appends header bytes 12..48 and is 36 bytes longer
than the header's size field accounts for. -/
theorem C1_roundtrip_broken :
    EncodeToBinary ⟨16000, 1000,
      [(LowBand, [⟨100, 7000, 512, 16000⟩]), (MidBand, [⟨200, 6500, 256, 16000⟩])]⟩ = none
  ∧ (EncodeToBinary ⟨16000, 1000,
      [(LowBand, [⟨0, 1, 1, 16000⟩, ⟨1, 2, 2, 16000⟩, ⟨2, 3, 3, 16000⟩,
        ⟨3, 4, 4, 16000⟩])]⟩).isSome = true
  ∧ DecodeFromBinary (encBytes ⟨16000, 1000,
      [(LowBand, [⟨0, 1, 1, 16000⟩, ⟨1, 2, 2, 16000⟩, ⟨2, 3, 3, 16000⟩,
        ⟨3, 4, 4, 16000⟩])]⟩) = .error .invalidSize := by
  decide

/-- Claim C2: the encoder stores `uint32(sampleRateHz) << 27`, which wraps
mod 2^32 and keeps only `sampleRateHz mod 32` in the top five bits; the
decoder's right shift by 27 therefore recovers `sampleRateHz mod 32`, not
the original rate, for every rate in the enumerated set (16000 → 0,
44100 → 4, and 8000/32000/48000 → 0). -/
theorem C2_samplerate_not_recovered :
    ((encBytes ⟨16000, 0, []⟩).drop 28).take 4 = u32le ((16000 * 2^27) % 2^32)
  ∧ (16000 * 2^27) % 2^32 = 0
  ∧ ((encBytes ⟨44100, 0, []⟩).drop 28).take 4 = u32le ((44100 * 2^27) % 2^32)
  ∧ DecodeFromBinary (goodHeader48 ((8000 * 2^27) % 2^32) 0) = .ok ⟨0, 0, []⟩
  ∧ DecodeFromBinary (goodHeader48 ((16000 * 2^27) % 2^32) 0) = .ok ⟨0, 0, []⟩
  ∧ DecodeFromBinary (goodHeader48 ((32000 * 2^27) % 2^32) 0) = .ok ⟨0, 0, []⟩
  ∧ DecodeFromBinary (goodHeader48 ((44100 * 2^27) % 2^32) 0) = .ok ⟨4, 0, []⟩
  ∧ DecodeFromBinary (goodHeader48 ((48000 * 2^27) % 2^32) 0) = .ok ⟨0, 0, []⟩
  ∧ (4 : ℤ) ≠ 44100 ∧ (0 : ℤ) ≠ 16000 := by
  decide

/-- Claim C3: encoding a perfectly in-range signature with a single peak
panics instead of returning padded bytes: the band payload is 5 bytes and
the Go padding count `-5 % 4` is `-1`, so `make([]byte, -1)` panics. -/
theorem C3_encode_panics_on_single_peak :
    EncodeToBinary ⟨16000, 1000, [(HighBand, [⟨10, 100, 200, 16000⟩])]⟩ = none := by
  decide

set_option maxRecDepth 16000 in
/-- Claim C4: the returned buffer does not satisfy the claimed layout.
For the empty-band signature the buffer is 92 bytes (not 56): offset 48
holds a duplicate of `Magic2` rather than the constant `0x40000000`,
which sits at offset 84 (with the inner length at 88), and the CRC stored
at offset 4 (computed over an intermediate 56-byte image) differs from
the IEEE CRC-32 of bytes 8.. of the final returned buffer. -/
theorem C4_header_layout_wrong :
    (encBytes ⟨16000, 1000, []⟩).length = 92
  ∧ ((encBytes ⟨16000, 1000, []⟩).drop 48).take 4 = u32le Magic2
  ∧ u32le Magic2 ≠ u32le 0x40000000
  ∧ ((encBytes ⟨16000, 1000, []⟩).drop 84).take 4 = u32le 0x40000000
  ∧ ((encBytes ⟨16000, 1000, []⟩).drop 88).take 4 = u32le 8
  ∧ ((encBytes ⟨16000, 1000, []⟩).drop 4).take 4
      ≠ u32le (crc32ieee ((encBytes ⟨16000, 1000, []⟩).drop 8)) := by
  decide

/-- Claim C5: the encoder does write `trunc(sampleCount + sampleRateHz *
0.24)` (= 4840 for 1000 samples at 16000 Hz, agreeing with the claimed
rounding since the float64 product `16000 * 0.24` is exactly 3840), but
the decoder inverts the offset using the *decoded* sample rate, which the
`<< 27` wrap has turned into 0; composing the two yields 4840, not the
original 1000. -/
theorem C5_samplecount_not_recovered :
    ((encBytes ⟨16000, 1000, []⟩).drop 40).take 4 = u32le 4840
  ∧ DecodeFromBinary (goodHeader48 ((16000 * 2^27) % 2^32) 4840) = .ok ⟨0, 4840, []⟩
  ∧ (4840 : ℤ) ≠ 1000 := by
  decide

/-- Claim C6: a truncated TLV payload does not make the decode fail.  In
`truncated61` the record declares 20 payload bytes but only 5 remain;
`bytes.Reader.Read` returns the short read with no error, the rest of the
allocated buffer stays zero, and the decode *succeeds*, fabricating three
zero peaks after the one genuine peak. -/
theorem C6_truncated_payload_accepted :
    DecodeFromBinary truncated61 =
      .ok ⟨0, 0, [(0, [⟨1, 2, 3, 0⟩, ⟨1, 0, 0, 0⟩, ⟨1, 0, 0, 0⟩, ⟨1, 0, 0, 0⟩])]⟩ := by
  decide

/-- Claim C7: the decoder validates, in order, the first magic constant,
the size field against `len(data) - 48` (as a `uint32` comparison), and
the second magic constant, failing with the distinct error of whichever
check fails first; any input shorter than the 48-byte header (including
the empty input) fails before the checks with the header-read error. -/
theorem C7_header_validation (data : List ℕ) :
    (data.length < 48 → DecodeFromBinary data = .error .headerTruncated)
  ∧ (48 ≤ data.length → readU32le data 0 ≠ Magic1 →
      DecodeFromBinary data = .error .invalidMagic1)
  ∧ (48 ≤ data.length → readU32le data 0 = Magic1 →
      readU32le data 8 ≠ (data.length - 48) % 2^32 →
      DecodeFromBinary data = .error .invalidSize)
  ∧ (48 ≤ data.length → readU32le data 0 = Magic1 →
      readU32le data 8 = (data.length - 48) % 2^32 → readU32le data 12 ≠ Magic2 →
      DecodeFromBinary data = .error .invalidMagic2) := by
  refine ⟨?_, ?_, ?_, ?_⟩
  · intro h
    rw [DecodeFromBinary, if_pos h]
  · intro h h1
    rw [DecodeFromBinary, if_neg (by omega), if_pos h1]
  · intro h h1 h2
    rw [DecodeFromBinary, if_neg (by omega), if_neg (by simp [h1]), if_pos h2]
  · intro h h1 h2 h3
    rw [DecodeFromBinary, if_neg (by omega), if_neg (by simp [h1]), if_neg (by simp [h2]),
      if_pos h3]

/-- Witness for C7: the empty input and a 10-byte input fail with the
header-read error. -/
theorem C7_header_validation_witness :
    DecodeFromBinary [] = .error .headerTruncated
  ∧ DecodeFromBinary (List.replicate 10 0) = .error .headerTruncated :=
  ⟨(C7_header_validation []).1 (by decide),
   (C7_header_validation (List.replicate 10 0)).1 (by decide)⟩

/-- Claim C8: the escape machinery itself matches the claim at the record
level — the encoder loop emits `0xFF` plus the 4-byte absolute pass
before the delta for a ≥255 gap, and the decoder consumes escapes without
emitting peaks and reproduces both pass numbers — but `EncodeToBinary`
on a band with exactly those two peaks panics (payload 15 bytes, padding
count `-15 % 4 = -3`), so the claimed encode-then-decode reproduction
fails. -/
theorem C8_escape_roundtrip_broken :
    encodePeaks 0 [⟨0, 1, 1, 16000⟩, ⟨300, 2, 2, 16000⟩]
      = [0, 1, 0, 1, 0] ++ 0xFF :: u32le 300 ++ [0, 2, 0, 2, 0]
  ∧ EncodeToBinary ⟨16000, 0, [(LowBand, [⟨0, 1, 1, 16000⟩, ⟨300, 2, 2, 16000⟩])]⟩ = none
  ∧ DecodeFromBinary escapeInput76 = .ok ⟨0, 0, [(0, [⟨0, 1, 1, 0⟩, ⟨300, 2, 2, 0⟩])]⟩ := by
  decide

/-- Claim C9: the band classifier is total on the non-negative
frequencies and partitions them with strict upper bounds at 250, 520 and
1450 Hz; the six boundary samples fall as claimed. -/
theorem C9_band_classifier (f : ℚ) (hf : 0 ≤ f) :
    (getFrequencyBand f = LowBand ↔ f < 250)
  ∧ (getFrequencyBand f = MidBand ↔ 250 ≤ f ∧ f < 520)
  ∧ (getFrequencyBand f = HighBand ↔ 520 ≤ f ∧ f < 1450)
  ∧ (getFrequencyBand f = VeryHighBand ↔ 1450 ≤ f)
  ∧ getFrequencyBand (2499/10) = LowBand
  ∧ getFrequencyBand 250 = MidBand
  ∧ getFrequencyBand (5199/10) = MidBand
  ∧ getFrequencyBand 520 = HighBand
  ∧ getFrequencyBand (14499/10) = HighBand
  ∧ getFrequencyBand 1450 = VeryHighBand := by
  have c1 : getFrequencyBand (2499/10) = LowBand := by
    norm_num [getFrequencyBand, LowBand]
  have c2 : getFrequencyBand 250 = MidBand := by
    norm_num [getFrequencyBand, MidBand]
  have c3 : getFrequencyBand (5199/10) = MidBand := by
    norm_num [getFrequencyBand, MidBand]
  have c4 : getFrequencyBand 520 = HighBand := by
    norm_num [getFrequencyBand, HighBand]
  have c5 : getFrequencyBand (14499/10) = HighBand := by
    norm_num [getFrequencyBand, HighBand]
  have c6 : getFrequencyBand 1450 = VeryHighBand := by
    norm_num [getFrequencyBand, VeryHighBand]
  rcases lt_or_le f 250 with h1 | h1
  · have hb : getFrequencyBand f = 0 := by
      rw [getFrequencyBand, if_pos h1]
      rfl
    exact ⟨iff_of_true (by simp [hb, LowBand]) h1,
      iff_of_false (by simp [hb, MidBand]) (by rintro ⟨h, -⟩; linarith),
      iff_of_false (by simp [hb, HighBand]) (by rintro ⟨h, -⟩; linarith),
      iff_of_false (by simp [hb, VeryHighBand]) (by intro h; linarith),
      c1, c2, c3, c4, c5, c6⟩
  · rcases lt_or_le f 520 with h2 | h2
    · have hb : getFrequencyBand f = 1 := by
        rw [getFrequencyBand, if_neg (not_lt.mpr h1), if_pos h2]
        rfl
      exact ⟨iff_of_false (by simp [hb, LowBand]) (not_lt.mpr h1),
        iff_of_true (by simp [hb, MidBand]) ⟨h1, h2⟩,
        iff_of_false (by simp [hb, HighBand]) (by rintro ⟨h, -⟩; linarith),
        iff_of_false (by simp [hb, VeryHighBand]) (by intro h; linarith),
        c1, c2, c3, c4, c5, c6⟩
    · rcases lt_or_le f 1450 with h3 | h3
      · have hb : getFrequencyBand f = 2 := by
          rw [getFrequencyBand, if_neg (not_lt.mpr h1), if_neg (not_lt.mpr h2), if_pos h3]
          rfl
        exact ⟨iff_of_false (by simp [hb, LowBand]) (not_lt.mpr h1),
          iff_of_false (by simp [hb, MidBand]) (by rintro ⟨-, h⟩; linarith),
          iff_of_true (by simp [hb, HighBand]) ⟨h2, h3⟩,
          iff_of_false (by simp [hb, VeryHighBand]) (by intro h; linarith),
          c1, c2, c3, c4, c5, c6⟩
      · have hb : getFrequencyBand f = 3 := by
          rw [getFrequencyBand, if_neg (not_lt.mpr h1), if_neg (not_lt.mpr h2),
            if_neg (not_lt.mpr h3)]
          rfl
        exact ⟨iff_of_false (by simp [hb, LowBand]) (not_lt.mpr h1),
          iff_of_false (by simp [hb, MidBand]) (by rintro ⟨-, h⟩; linarith),
          iff_of_false (by simp [hb, HighBand]) (by rintro ⟨-, h⟩; linarith),
          iff_of_true (by simp [hb, VeryHighBand]) h3,
          c1, c2, c3, c4, c5, c6⟩

/-- Witness for C9: instantiation at frequency 0. -/
theorem C9_band_classifier_witness :
    (getFrequencyBand 0 = LowBand ↔ (0 : ℚ) < 250)
  ∧ (getFrequencyBand 0 = MidBand ↔ 250 ≤ (0 : ℚ) ∧ (0 : ℚ) < 520)
  ∧ (getFrequencyBand 0 = HighBand ↔ 520 ≤ (0 : ℚ) ∧ (0 : ℚ) < 1450)
  ∧ (getFrequencyBand 0 = VeryHighBand ↔ 1450 ≤ (0 : ℚ))
  ∧ getFrequencyBand (2499/10) = LowBand
  ∧ getFrequencyBand 250 = MidBand
  ∧ getFrequencyBand (5199/10) = MidBand
  ∧ getFrequencyBand 520 = HighBand
  ∧ getFrequencyBand (14499/10) = HighBand
  ∧ getFrequencyBand 1450 = VeryHighBand :=
  C9_band_classifier 0 (le_refl 0)

/-- Claim C10: a 48-byte input passing the three header checks decodes
successfully — end-of-input right after the header breaks the TLV loop
without error — yielding an empty peak map, the sample rate from the
packed field shifted right 27 bits, and the sample count from the header
field with the `rate * 0.24` offset removed. -/
theorem C10_header_only_decodes (data : List ℕ) (hlen : data.length = 48)
    (h1 : readU32le data 0 = Magic1) (h2 : readU32le data 8 = 0)
    (h3 : readU32le data 12 = Magic2) :
    DecodeFromBinary data = .ok ⟨((readU32le data 28) >>> 27 : ℕ),
      Frac.truncZ (fsub (f64ofNat (readU32le data 40))
        (fmul (f64ofInt ((readU32le data 28) >>> 27 : ℕ)) c024)), []⟩ := by
  have hloop : decodeLoop data (((readU32le data 28) >>> 27 : ℕ) : ℤ) (data.length + 1) 48
      (List.replicate 8 0) [] = .ok [] := by
    rw [hlen, decodeLoop]
    rw [if_pos (by omega)]
  rw [DecodeFromBinary, if_neg (by omega), if_neg (by simp [h1]),
    if_neg (by simp [h2, hlen]), if_neg (by simp [h3])]
  simp only [hloop]

/-- Witness for C10: the concrete header-only buffer with zero packed
fields decodes to the empty message. -/
theorem C10_header_only_decodes_witness :
    DecodeFromBinary (goodHeader48 0 0) = .ok ⟨0, 0, []⟩ := by
  have h := C10_header_only_decodes (goodHeader48 0 0)
    (by decide) (by decide) (by decide) (by decide)
  rw [h]
  decide
